import Mathlib

/-!
Verification development for the `alinea` Python SDK
(`src/alinea/world_state.py`, `src/alinea/coordinator.py`,
`src/alinea/memory.py`, `src/alinea/models.py`).

Python dictionaries are embedded as association lists (`List (String × α)`)
with first-match lookup; insertion of a fresh key appends at the end, and
assignment to an existing key replaces the value in place, mirroring the
insertion-order semantics of `dict`.  Python floats are embedded as exact
rationals `ℚ`; ISO timestamps and HLC times, which the code only compares
and threads through, are embedded as `ℚ` (hours, resp. abstract clock
values).  Wall-clock readings (`datetime.utcnow()`) and generated UUIDs are
passed in as explicit parameters.  Code that can raise is embedded in
`Except String`.
-/

/-- Values stored in the heterogeneous Python dictionaries used by the SDK
(`Dict[str, Any]`). -/
inductive PyVal where
  | str (s : String)
  | int (n : Int)
  | rat (q : ℚ)
  | bool (b : Bool)
  | none
  deriving DecidableEq, Repr

/-- A Python `Dict[str, Any]` as an insertion-ordered association list. -/
abbrev PyMap := List (String × PyVal)

/-- First-match lookup in an association list (`d[k]` / `d.get(k)`). -/
def lookupKey (k : String) : List (String × α) → Option α
  | [] => Option.none
  | e :: es => if e.1 = k then some e.2 else lookupKey k es

/-- Remove the first entry with the given key (`del d[k]` / `d.pop(k, None)`). -/
def eraseKey (k : String) : List (String × α) → List (String × α)
  | [] => []
  | e :: es => if e.1 = k then es else e :: eraseKey k es

/-- Assignment `d[k] = v`: replace in place when the key exists, else append. -/
def setKey (k : String) (v : α) : List (String × α) → List (String × α)
  | [] => [(k, v)]
  | e :: es => if e.1 = k then (k, v) :: es else e :: setKey k v es

theorem lookupKey_eq_none {k : String} :
    ∀ {l : List (String × α)}, lookupKey k l = Option.none ↔ k ∉ l.map Prod.fst := by
  intro l
  induction l with
  | nil => simp [lookupKey]
  | cons e es ih =>
    by_cases h : e.1 = k
    · simp [lookupKey, h]
    · simp only [lookupKey, if_neg h, List.map_cons, List.mem_cons, ih]
      constructor
      · intro hn hk
        rcases hk with hk | hk
        · exact h hk.symm
        · exact hn hk
      · exact fun hn hk => hn (Or.inr hk)

theorem lookupKey_setKey_self {k : String} (v : α) :
    ∀ l : List (String × α), lookupKey k (setKey k v l) = some v := by
  intro l
  induction l with
  | nil => simp [setKey, lookupKey]
  | cons e es ih =>
    by_cases h : e.1 = k <;> simp [setKey, lookupKey, h, ih]

theorem eraseKey_map_fst_sublist (k : String) :
    ∀ l : List (String × α), ((eraseKey k l).map Prod.fst).Sublist (l.map Prod.fst) := by
  intro l
  induction l with
  | nil => simp [eraseKey]
  | cons e es ih =>
    by_cases h : e.1 = k
    · simp [eraseKey, h]
    · simpa [eraseKey, h] using ih.cons₂ e.1

theorem eraseKey_keys_nodup {k : String} {l : List (String × α)}
    (h : (l.map Prod.fst).Nodup) : ((eraseKey k l).map Prod.fst).Nodup :=
  (eraseKey_map_fst_sublist k l).nodup h

theorem lookupKey_eraseKey_self {k : String} {l : List (String × α)}
    (h : (l.map Prod.fst).Nodup) : lookupKey k (eraseKey k l) = Option.none := by
  induction l with
  | nil => rfl
  | cons e es ih =>
    rw [List.map_cons, List.nodup_cons] at h
    by_cases he : e.1 = k
    · simp only [eraseKey, if_pos he]
      rw [lookupKey_eq_none]
      rw [he] at h
      exact h.1
    · simp only [eraseKey, if_neg he, lookupKey, if_neg he]
      exact ih h.2

theorem lookupKey_eraseKey_ne {k k2 : String} (hne : k2 ≠ k) :
    ∀ l : List (String × α), lookupKey k2 (eraseKey k l) = lookupKey k2 l := by
  intro l
  induction l with
  | nil => simp [eraseKey]
  | cons e es ih =>
    by_cases he : e.1 = k
    · have h2 : ¬ e.1 = k2 := by
        rw [he]
        exact fun hk => hne hk.symm
      simp only [eraseKey, if_pos he, lookupKey, if_neg h2]
    · by_cases he2 : e.1 = k2
      · simp only [eraseKey, if_neg he, lookupKey, if_pos he2]
      · simp only [eraseKey, if_neg he, lookupKey, if_neg he2]
        exact ih

/-! ## World state (`src/alinea/world_state.py`) -/

/-- A `WorldSnapshot` (`models.py`).  `hlc_time` is embedded as `ℚ`
(the code stores `str(float)` counters), wall-clock `creation_timestamp`
as an opaque `String`. -/
structure WorldSnapshot where
  hlc_time : ℚ
  resources : List (String × PyMap)
  active_agents : List String
  resource_locks : List (String × String)
  snapshot_id : String
  creation_timestamp : String
  deriving DecidableEq, Repr

/-- The mutable state of a `WorldStateManager`: the HLC counter, the
`resource -> agent_id` lock table, the active-agent list and the snapshot
cache. -/
structure WState where
  hlc : ℚ
  locks : List (String × String)
  agents : List String
  snapshots : List (String × WorldSnapshot)
  deriving DecidableEq, Repr

/-- The freshly constructed `WorldStateManager` state. -/
def WState.init : WState :=
  { hlc := 0, locks := [], agents := [], snapshots := [] }

/-- Model of `WorldStateManager._get_current_hlc_time`: advance the counter
by `0.1` and return the new value. -/
def WState.getCurrentHlcTime (st : WState) : WState × ℚ :=
  let t := st.hlc + 1/10
  ({ st with hlc := t }, t)

/-- Model of `WorldStateManager._get_resource_state`: simulated state for
`"db"` and `"cache"`, and a generic state embedding the HLC time otherwise. -/
def getResourceState (resource : String) (hlc_time : ℚ) : PyMap :=
  if resource = "db" then
    [("connections", .int 10), ("active_queries", .int 3), ("status", .str "healthy")]
  else if resource = "cache" then
    [("memory_usage", .str "75%"), ("hit_rate", .rat (92/100)), ("entries", .int 15000)]
  else
    [("status", .str "unknown"), ("last_updated", .rat hlc_time)]

/-- Model of `WorldStateManager.get_world_state`.  The generated
`snapshot_id` (a UUID) and the wall-clock `creation_timestamp` are passed in
as parameters `sid` and `now`. -/
def WState.getWorldState (st : WState) (resources : List String)
    (hlc_time : Option ℚ) (sid : String) (now : String) : WState × WorldSnapshot :=
  let (st, t) :=
    match hlc_time with
    | some t => (st, t)
    | Option.none => st.getCurrentHlcTime
  let resource_states := resources.map (fun r => (r, getResourceState r t))
  let relevant_locks := st.locks.filter (fun e => e.1 ∈ resources)
  let snap : WorldSnapshot :=
    { hlc_time := t, resources := resource_states, active_agents := st.agents,
      resource_locks := relevant_locks, snapshot_id := sid, creation_timestamp := now }
  ({ st with snapshots := st.snapshots ++ [(sid, snap)] }, snap)

/-- Model of `WorldStateManager.acquire_resource_lock`.  Sequentially (no
concurrent releaser while this call waits), the retry loop either succeeds
immediately when the resource is free or returns `False` on timeout. -/
def acquireLock (locks : List (String × String)) (resource agent_id : String) :
    List (String × String) × Bool :=
  match lookupKey resource locks with
  | some _ => (locks, false)
  | Option.none => (locks ++ [(resource, agent_id)], true)

/-- Model of `WorldStateManager.release_resource_lock`. -/
def releaseLock (locks : List (String × String)) (resource agent_id : String) :
    List (String × String) × Bool :=
  match lookupKey resource locks with
  | Option.none => (locks, true)
  | some holder =>
      if holder = agent_id then (eraseKey resource locks, true)
      else (locks, false)

/-- Model of `WorldStateManager.register_agent`. -/
def WState.registerAgent (st : WState) (agent_id : String) : WState :=
  if agent_id ∈ st.agents then st else { st with agents := st.agents ++ [agent_id] }

/-- Model of `WorldStateManager.unregister_agent`: drop the agent from the
active list, then release every lock whose holder is this agent. -/
def WState.unregisterAgent (st : WState) (agent_id : String) : WState :=
  let agents := if agent_id ∈ st.agents then st.agents.erase agent_id else st.agents
  let locks_to_release :=
    (st.locks.filter (fun e => e.2 = agent_id)).map Prod.fst
  let locks := locks_to_release.foldl (fun l r => (releaseLock l r agent_id).1) st.locks
  { st with agents := agents, locks := locks }

/-- Lock-table operations available to clients of `WorldStateManager`. -/
inductive WOp where
  | acquire (resource agent_id : String)
  | release (resource agent_id : String)
  | unregister (agent_id : String)
  deriving Repr

/-- Apply one lock-table operation to a `WState`. -/
def WState.applyWOp (st : WState) : WOp → WState
  | .acquire r a => { st with locks := (acquireLock st.locks r a).1 }
  | .release r a => { st with locks := (releaseLock st.locks r a).1 }
  | .unregister a => st.unregisterAgent a

/-- Apply a sequence of lock-table operations from left to right. -/
def WState.applyWOps (st : WState) (ops : List WOp) : WState :=
  ops.foldl WState.applyWOp st

/-! ## C3 / C4: lock-table lemmas -/

theorem acquireLock_keys_nodup {locks : List (String × String)} {r a : String}
    (h : (locks.map Prod.fst).Nodup) :
    (((acquireLock locks r a).1.map Prod.fst)).Nodup := by
  unfold acquireLock
  cases hl : lookupKey r locks with
  | some holder => exact h
  | none =>
    simp only [List.map_append, List.map_cons, List.map_nil]
    rw [List.nodup_append]
    refine ⟨h, List.nodup_singleton r, ?_⟩
    intro x hx hmem
    rw [List.mem_singleton] at hmem
    subst hmem
    exact (lookupKey_eq_none.mp hl) hx

theorem releaseLock_keys_nodup {locks : List (String × String)} {r a : String}
    (h : (locks.map Prod.fst).Nodup) :
    (((releaseLock locks r a).1.map Prod.fst)).Nodup := by
  unfold releaseLock
  cases hl : lookupKey r locks with
  | none => exact h
  | some holder =>
    by_cases hh : holder = a
    · simpa [hh] using eraseKey_keys_nodup h
    · simpa [hh] using h

theorem releaseFold_keys_nodup {a : String} :
    ∀ (rs : List String) (locks : List (String × String)),
      (locks.map Prod.fst).Nodup →
      ((rs.foldl (fun l r => (releaseLock l r a).1) locks).map Prod.fst).Nodup := by
  intro rs
  induction rs with
  | nil => intro locks h; exact h
  | cons r rs ih =>
    intro locks h
    exact ih _ (releaseLock_keys_nodup h)

theorem applyWOp_keys_nodup {st : WState} (op : WOp)
    (h : (st.locks.map Prod.fst).Nodup) :
    (((st.applyWOp op).locks.map Prod.fst)).Nodup := by
  cases op with
  | acquire r a => exact acquireLock_keys_nodup h
  | release r a => exact releaseLock_keys_nodup h
  | unregister a => exact releaseFold_keys_nodup _ _ h

theorem applyWOps_keys_nodup :
    ∀ (ops : List WOp) (st : WState), (st.locks.map Prod.fst).Nodup →
      (((st.applyWOps ops).locks.map Prod.fst)).Nodup := by
  intro ops
  induction ops with
  | nil => intro st h; exact h
  | cons op ops ih =>
    intro st h
    exact ih _ (applyWOp_keys_nodup op h)

theorem countP_key_le_one_of_nodup {r : String} :
    ∀ {l : List (String × String)}, (l.map Prod.fst).Nodup →
      l.countP (fun e => decide (e.1 = r)) ≤ 1 := by
  intro l
  induction l with
  | nil => intro _; simp [List.countP_nil]
  | cons e es ih =>
    intro h
    rw [List.map_cons, List.nodup_cons] at h
    rw [List.countP_cons]
    by_cases he : e.1 = r
    · have hzero : es.countP (fun e => decide (e.1 = r)) = 0 := by
        rw [List.countP_eq_zero]
        intro x hx
        simp only [decide_eq_true_eq]
        intro hxr
        exact h.1 (by
          rw [he, ← hxr]
          exact List.mem_map_of_mem Prod.fst hx)
      simp [hzero, he]
    · simp only [he, decide_eq_true_eq, if_neg]
      simpa [he] using Nat.le_trans (ih h.2) (le_refl 1)

/-- C3: starting from the empty lock table, after any finite sequence of
`acquire_resource_lock`, `release_resource_lock` and `unregister_agent`
operations, every resource has at most one entry (hence at most one holding
agent) in the lock table. -/
theorem lock_table_at_most_one_holder (ops : List WOp) (r : String) :
    ((WState.init.applyWOps ops).locks.countP (fun e => decide (e.1 = r))) ≤ 1 := by
  apply countP_key_le_one_of_nodup
  apply applyWOps_keys_nodup
  simp [WState.init]

/-- C4: case analysis of `release_resource_lock`.  When the resource is not
in the lock table the call returns `True` (so a release following a
successful release also returns `True`); when the resource is held by a
different agent it returns `False` and leaves the table unchanged; when the
resource is held by the releasing agent it returns `True` and removes
exactly that entry. -/
theorem releaseLock_cases (locks : List (String × String)) (r a : String)
    (hnd : (locks.map Prod.fst).Nodup) :
    (lookupKey r locks = Option.none → releaseLock locks r a = (locks, true)) ∧
    (∀ b, lookupKey r locks = some b → b ≠ a → releaseLock locks r a = (locks, false)) ∧
    (lookupKey r locks = some a →
      (releaseLock locks r a).2 = true ∧
      lookupKey r (releaseLock locks r a).1 = Option.none ∧
      (∀ r2, r2 ≠ r → lookupKey r2 (releaseLock locks r a).1 = lookupKey r2 locks) ∧
      (releaseLock (releaseLock locks r a).1 r a).2 = true) := by
  refine ⟨?_, ?_, ?_⟩
  · intro h
    simp [releaseLock, h]
  · intro b hb hba
    simp [releaseLock, hb, hba]
  · intro h
    have hrel : releaseLock locks r a = (eraseKey r locks, true) := by
      simp [releaseLock, h]
    have herased : lookupKey r (eraseKey r locks) = Option.none :=
      lookupKey_eraseKey_self hnd
    refine ⟨by rw [hrel], by rw [hrel]; exact herased, ?_, ?_⟩
    · intro r2 hr2
      rw [hrel]
      exact lookupKey_eraseKey_ne hr2 locks
    · rw [hrel]
      simp [releaseLock, herased]

/-- Witness for `releaseLock_cases` at a concrete one-entry lock table. -/
theorem releaseLock_cases_witness :
    (releaseLock [("r1", "a1")] "r1" "a1").2 = true ∧
    lookupKey "r1" (releaseLock [("r1", "a1")] "r1" "a1").1 = Option.none ∧
    (releaseLock (releaseLock [("r1", "a1")] "r1" "a1").1 "r1" "a1").2 = true := by
  have h := (releaseLock_cases [("r1", "a1")] "r1" "a1" (by decide)).2.2 (by decide)
  exact ⟨h.1, h.2.1, h.2.2.2⟩

/-- C9 counterexample: two consecutive `get_world_state` calls with the
default (advancing) HLC clock on an unknown resource return different
`resources` maps, because the simulated resource state embeds the HLC time. -/
theorem snapshot_not_idempotent_default_clock :
    ((WState.init.getWorldState ["x"] Option.none "sid1" "t1").2.resources ≠
      (((WState.init.getWorldState ["x"] Option.none "sid1" "t1").1.getWorldState
        ["x"] Option.none "sid2" "t2").2.resources)) := by
  norm_num [WState.getWorldState, WState.getCurrentHlcTime, getResourceState, WState.init]
  rw [if_neg (by decide), if_neg (by decide), if_neg (by decide), if_neg (by decide)]
  simp only [List.cons.injEq, Prod.mk.injEq, PyVal.rat.injEq, PyVal.str.injEq]
  norm_num

/-- C9 amended: two consecutive `get_world_state` calls with the same
explicitly supplied `hlc_time` and no intervening mutation return snapshots
with equal `resources` and `resource_locks` maps; with the default clock the
`resource_locks` maps are still equal. -/
theorem snapshot_idempotent_no_mutation (st : WState) (resources : List String)
    (t : ℚ) (sid1 sid2 now1 now2 : String) :
    ((st.getWorldState resources (some t) sid1 now1).2.resources =
      ((st.getWorldState resources (some t) sid1 now1).1.getWorldState
        resources (some t) sid2 now2).2.resources) ∧
    ((st.getWorldState resources (some t) sid1 now1).2.resource_locks =
      ((st.getWorldState resources (some t) sid1 now1).1.getWorldState
        resources (some t) sid2 now2).2.resource_locks) ∧
    ((st.getWorldState resources Option.none sid1 now1).2.resource_locks =
      ((st.getWorldState resources Option.none sid1 now1).1.getWorldState
        resources Option.none sid2 now2).2.resource_locks) := by
  refine ⟨rfl, rfl, rfl⟩

/-! ## Coordinator (`src/alinea/coordinator.py`) -/

/-- Outcome of an `ActionResult` (`Literal["success", "failure"]`). -/
inductive Outcome where
  | success
  | failure
  deriving DecidableEq, Repr

/-- An `Intention` (`models.py`). -/
structure Intention where
  agent_id : String
  action : String
  affected_resources : List String
  context : PyMap
  intention_id : Option String := Option.none
  timestamp : Option String := Option.none
  confidence : Option ℚ := Option.none
  deriving DecidableEq, Repr

/-- An `ActionResult` (`models.py`). -/
structure ActionResult where
  intention_id : String
  outcome : Outcome
  reason : Option String := Option.none
  debug_info : Option PyMap := Option.none
  execution_time : Option ℚ := Option.none
  timestamp : Option String := Option.none
  deriving DecidableEq, Repr

/-- A `PatternConfidence` (`models.py`). -/
structure PatternConfidence where
  pattern_id : String
  confidence_score : ℚ
  sample_count : ℕ
  last_updated : String
  pattern_type : String
  deriving DecidableEq, Repr

/-- The mutable state of a `Coordinator`: the active-intention table and the
pattern-confidence cache. -/
structure CoordState where
  active_intentions : List (String × Intention)
  pattern_cache : List (String × PatternConfidence)
  deriving DecidableEq, Repr

/-- The pattern-cache key `f"{agent_id}_{action}_resources"`. -/
def patternKey (i : Intention) : String :=
  i.agent_id ++ "_" ++ i.action ++ "_resources"

/-- Model of `Coordinator._update_pattern_learning`: bump the cached
confidence by `0.1` clamped to `[0,1]` according to the outcome. -/
def updatePatternLearning (st : CoordState) (intention : Intention)
    (result : ActionResult) (now : String) : CoordState :=
  match lookupKey (patternKey intention) st.pattern_cache with
  | Option.none => st
  | some pc =>
      let score :=
        if result.outcome = Outcome.success then min 1 (pc.confidence_score + 1/10)
        else max 0 (pc.confidence_score - 1/10)
      let pc2 : PatternConfidence :=
        { pc with confidence_score := score, sample_count := pc.sample_count + 1,
                  last_updated := now }
      { st with pattern_cache := setKey (patternKey intention) pc2 st.pattern_cache }

/-- The `ActionResult` returned by `act` for an unknown or already resolved
intention. -/
def notFoundResult (i : String) : ActionResult :=
  { intention_id := i, outcome := Outcome.failure,
    reason := some "Intention not found or expired" }

/-- The `ActionResult` built by `act` on successful execution. -/
def successResult (i now : String) (dur : ℚ) : ActionResult :=
  { intention_id := i, outcome := Outcome.success,
    execution_time := some dur, timestamp := some now }

/-- The `ActionResult` built by `act` when execution raises `e`. -/
def failureResult (i e now : String) (dur : ℚ) : ActionResult :=
  { intention_id := i, outcome := Outcome.failure, reason := some e,
    execution_time := some dur, timestamp := some now }

/-- Model of `Coordinator.act`.  `execA` is the possibly-raising execution
of the action (`_execute_action`); `now` and `dur` are the wall-clock
timestamp and measured execution time.  A missing (or empty) `intention_id`
raises `ValueError` before the `try` block, embedded as `Except.error`. -/
def Coordinator.act (execA : Intention → Except String Unit) (now : String)
    (dur : ℚ) (st : CoordState) (intention : Intention) :
    Except String (CoordState × ActionResult) :=
  match intention.intention_id with
  | Option.none => Except.error "Intention must have an intention_id"
  | some i =>
    if i = "" then Except.error "Intention must have an intention_id"
    else
      match lookupKey i st.active_intentions with
      | Option.none => Except.ok (st, notFoundResult i)
      | some _ =>
        match execA intention with
        | Except.ok _ =>
            let st2 := updatePatternLearning st intention (successResult i now dur) now
            Except.ok ({ st2 with active_intentions := eraseKey i st2.active_intentions },
                       successResult i now dur)
        | Except.error e =>
            Except.ok ({ st with active_intentions := eraseKey i st.active_intentions },
                       failureResult i e now dur)

theorem act_eq_notFound {execA : Intention → Except String Unit} {now : String}
    {dur : ℚ} {st : CoordState} {intention : Intention} {i : String}
    (hid : intention.intention_id = some i) (hne : i ≠ "")
    (hl : lookupKey i st.active_intentions = Option.none) :
    Coordinator.act execA now dur st intention = Except.ok (st, notFoundResult i) := by
  simp [Coordinator.act, hid, hne, hl]

theorem act_eq_success {execA : Intention → Except String Unit} {now : String}
    {dur : ℚ} {st : CoordState} {intention : Intention} {i : String} {v : Intention}
    {u : Unit} (hid : intention.intention_id = some i) (hne : i ≠ "")
    (hl : lookupKey i st.active_intentions = some v)
    (hex : execA intention = Except.ok u) :
    Coordinator.act execA now dur st intention =
      Except.ok
        ({ updatePatternLearning st intention (successResult i now dur) now with
            active_intentions :=
              eraseKey i
                (updatePatternLearning st intention (successResult i now dur)
                  now).active_intentions },
         successResult i now dur) := by
  simp [Coordinator.act, hid, hne, hl, hex]

theorem act_eq_error {execA : Intention → Except String Unit} {now : String}
    {dur : ℚ} {st : CoordState} {intention : Intention} {i : String} {v : Intention}
    {e : String} (hid : intention.intention_id = some i) (hne : i ≠ "")
    (hl : lookupKey i st.active_intentions = some v)
    (hex : execA intention = Except.error e) :
    Coordinator.act execA now dur st intention =
      Except.ok ({ st with active_intentions := eraseKey i st.active_intentions },
                 failureResult i e now dur) := by
  simp [Coordinator.act, hid, hne, hl, hex]

/-- C1 counterexample: `act` on an intention with no `intention_id`
propagates a `ValueError` instead of returning an `ActionResult`. -/
theorem act_raises_on_missing_intention_id :
    Coordinator.act (fun _ => Except.ok ()) "t" 0
      { active_intentions := [], pattern_cache := [] }
      { agent_id := "a", action := "go", affected_resources := [], context := [] }
      = Except.error "Intention must have an intention_id" := rfl

/-- C1 amended: for every intention whose `intention_id` is present and
non-empty, `act` returns an `ActionResult` and never propagates an
exception; when the intention is active and execution raises `e`, the
returned result has outcome `failure` with reason `e`. -/
theorem act_total_and_captures_failures
    (execA : Intention → Except String Unit) (now : String) (dur : ℚ)
    (st : CoordState) (intention : Intention) (i : String)
    (hid : intention.intention_id = some i) (hne : i ≠ "") :
    (∃ p, Coordinator.act execA now dur st intention = Except.ok p) ∧
    (∀ e v, execA intention = Except.error e →
      lookupKey i st.active_intentions = some v →
      ∃ st2, Coordinator.act execA now dur st intention =
        Except.ok (st2, failureResult i e now dur)) := by
  constructor
  · cases hl : lookupKey i st.active_intentions with
    | none => exact ⟨_, act_eq_notFound hid hne hl⟩
    | some v =>
      cases hex : execA intention with
      | ok u => exact ⟨_, act_eq_success hid hne hl hex⟩
      | error e => exact ⟨_, act_eq_error hid hne hl hex⟩
  · intro e v hex hl
    exact ⟨_, act_eq_error hid hne hl hex⟩

/-- Witness for `act_total_and_captures_failures` on a concrete intention. -/
theorem act_total_and_captures_failures_witness :
    ∃ p, Coordinator.act (fun _ => Except.ok ()) "t" 0
      { active_intentions := [], pattern_cache := [] }
      { agent_id := "a", action := "go", affected_resources := [], context := [],
        intention_id := some "i1" } = Except.ok p :=
  (act_total_and_captures_failures (fun _ => Except.ok ()) "t" 0
    { active_intentions := [], pattern_cache := [] }
    { agent_id := "a", action := "go", affected_resources := [], context := [],
      intention_id := some "i1" } "i1" rfl (by decide)).1

theorem updatePatternLearning_active (st : CoordState) (intention : Intention)
    (result : ActionResult) (now : String) :
    (updatePatternLearning st intention result now).active_intentions =
      st.active_intentions := by
  unfold updatePatternLearning
  cases lookupKey (patternKey intention) st.pattern_cache <;> rfl

/-- C2: `act` on an intention whose id is not in the active table returns
the not-found failure and leaves the state unchanged; every `act` call that
returns a result leaves the id out of the active table; hence a second
`act` on a registered intention returns the not-found failure
(at-most-once execution). -/
theorem act_at_most_once
    (execA : Intention → Except String Unit) (now : String) (dur : ℚ)
    (st : CoordState) (intention : Intention) (i : String)
    (hid : intention.intention_id = some i) (hne : i ≠ "")
    (hnd : (st.active_intentions.map Prod.fst).Nodup) :
    (lookupKey i st.active_intentions = Option.none →
      Coordinator.act execA now dur st intention = Except.ok (st, notFoundResult i)) ∧
    (∀ st2 r, Coordinator.act execA now dur st intention = Except.ok (st2, r) →
      lookupKey i st2.active_intentions = Option.none) ∧
    (∀ v st2 r, lookupKey i st.active_intentions = some v →
      Coordinator.act execA now dur st intention = Except.ok (st2, r) →
      Coordinator.act execA now dur st2 intention =
        Except.ok (st2, notFoundResult i)) := by
  have herase : lookupKey i (eraseKey i st.active_intentions) = Option.none :=
    lookupKey_eraseKey_self hnd
  have hgone : ∀ st2 r, Coordinator.act execA now dur st intention = Except.ok (st2, r) →
      lookupKey i st2.active_intentions = Option.none := by
    intro st2 r h
    cases hl : lookupKey i st.active_intentions with
    | none =>
      rw [act_eq_notFound hid hne hl] at h
      simp only [Except.ok.injEq, Prod.mk.injEq] at h
      rw [← h.1]
      exact hl
    | some v =>
      cases hex : execA intention with
      | ok u =>
        rw [act_eq_success hid hne hl hex] at h
        simp only [Except.ok.injEq, Prod.mk.injEq] at h
        rw [← h.1]
        simpa [updatePatternLearning_active] using herase
      | error e =>
        rw [act_eq_error hid hne hl hex] at h
        simp only [Except.ok.injEq, Prod.mk.injEq] at h
        rw [← h.1]
        exact herase
  refine ⟨fun hl => act_eq_notFound hid hne hl, hgone, ?_⟩
  intro v st2 r hl h
  exact act_eq_notFound hid hne (hgone st2 r h)

/-- A concrete registered intention used by the `act_at_most_once` witness. -/
def int1c : Intention :=
  { agent_id := "a", action := "go", affected_resources := [], context := [],
    intention_id := some "i1" }

/-- Witness for `act_at_most_once`: acting twice on the same registered
intention makes the second call return the not-found failure. -/
theorem act_at_most_once_witness :
    ∃ st2 r, Coordinator.act (fun _ => Except.ok ()) "t" 0
        { active_intentions := [("i1", int1c)], pattern_cache := [] } int1c =
        Except.ok (st2, r) ∧
      Coordinator.act (fun _ => Except.ok ()) "t" 0 st2 int1c =
        Except.ok (st2, notFoundResult "i1") := by
  have h := act_at_most_once (fun _ => Except.ok ()) "t" 0
    { active_intentions := [("i1", int1c)], pattern_cache := [] } int1c "i1"
    rfl (by decide) (by simp)
  have hfirst := @act_eq_success (fun _ => Except.ok ()) "t" 0
    { active_intentions := [("i1", int1c)], pattern_cache := [] } int1c "i1" int1c ()
    rfl (by decide) (by simp [lookupKey, int1c]) rfl
  exact ⟨_, _, hfirst, h.2.2 int1c _ _ (by simp [lookupKey]) hfirst⟩

/-! ## Memory (`src/alinea/memory.py`) -/

/-- A surprise event appended by `record_surprise` (the dictionary built at
`memory.py` lines 138-146); `timestamp` is embedded as `ℚ` hours. -/
structure SurpriseEvent where
  timestamp : ℚ
  expected : PyMap
  actual : PyMap
  context : PyMap
  surprise_magnitude : ℚ
  deriving DecidableEq, Repr

/-- A `MemoryPattern` (`models.py`); `last_accessed` is embedded as `ℚ`
hours (the code compares ISO strings, which order chronologically). -/
structure MemoryPattern where
  pattern_id : String
  pattern_type : String
  trigger_conditions : PyMap
  expected_outcomes : PyMap
  confidence : ℚ
  usage_count : ℕ
  last_accessed : ℚ
  surprise_events : List SurpriseEvent
  deriving DecidableEq, Repr

/-- The `MemoryManager._surprise_threshold` constant. -/
def surpriseThreshold : ℚ := 3/10

/-- The `MemoryManager._pattern_decay_hours` constant. -/
def patternDecayHours : ℚ := 24

/-- The distinct keys of a map (`set(d.keys())`), in first-occurrence order. -/
def mapKeys (m : PyMap) : List String := (m.map Prod.fst).dedup

/-- The union `set(expected.keys()).union(set(actual.keys()))`. -/
def unionKeys (expected actual : PyMap) : List String :=
  (mapKeys expected ++ mapKeys actual).dedup

/-- Python `d.get(k)`: the stored value, or `None` when the key is absent,
so a stored `None` and a missing key compare equal. -/
def pyGet (k : String) (m : PyMap) : PyVal := (lookupKey k m).getD PyVal.none

/-- Model of `MemoryManager._calculate_surprise_magnitude`.  Values are
compared with `expected.get(key) != actual.get(key)`, so a key stored with
value `None` in one map and absent from the other counts as a match. -/
def surpriseMagnitude (expected actual : PyMap) : ℚ :=
  if expected = [] ∧ actual = [] then 0
  else
    let all_keys := unionKeys expected actual
    let differences :=
      all_keys.countP (fun k => decide (pyGet k expected ≠ pyGet k actual))
    if all_keys = [] then 0
    else min 1 ((differences : ℚ) / (all_keys.length : ℚ))

/-- Model of `MemoryManager._trigger_pattern_relearning` (after the lookup):
halve the confidence with floor `0.1` and keep `surprise_events[-2:]`. -/
def triggerPatternRelearning (p : MemoryPattern) : MemoryPattern :=
  { p with confidence := max (1/10) (p.confidence * (1/2)),
           surprise_events :=
             p.surprise_events.drop (p.surprise_events.length - 2) }

/-- Model of the body of `MemoryManager.record_surprise` acting on the
pattern found in the table: append the surprise event, reduce confidence on
a significant surprise, and relearn after more than 5 surprise events. -/
def recordSurprisePattern (p : MemoryPattern) (expected actual ctx : PyMap)
    (t : ℚ) : MemoryPattern :=
  let ev : SurpriseEvent :=
    { timestamp := t, expected := expected, actual := actual, context := ctx,
      surprise_magnitude := surpriseMagnitude expected actual }
  let p1 := { p with surprise_events := p.surprise_events ++ [ev] }
  let p2 :=
    if ev.surprise_magnitude > surpriseThreshold then
      { p1 with confidence := max 0 (p1.confidence - ev.surprise_magnitude * (1/2)) }
    else p1
  if p2.surprise_events.length > 5 then triggerPatternRelearning p2 else p2

/-- Model of `MemoryManager.record_surprise` on the pattern table: a missing
`pattern_id` is a no-op, otherwise the stored pattern is updated in place. -/
def recordSurprise (patterns : List (String × MemoryPattern)) (pattern_id : String)
    (expected actual ctx : PyMap) (t : ℚ) : List (String × MemoryPattern) :=
  match lookupKey pattern_id patterns with
  | Option.none => patterns
  | some p => setKey pattern_id (recordSurprisePattern p expected actual ctx t) patterns

/-- Model of `MemoryManager.store_pattern`: build the pattern with the
caller-supplied confidence and store it under `pattern_id`. -/
def storePattern (patterns : List (String × MemoryPattern))
    (pattern_id pattern_type : String) (trigger_conditions expected_outcomes : PyMap)
    (confidence : ℚ) (now : ℚ) : List (String × MemoryPattern) × MemoryPattern :=
  let p : MemoryPattern :=
    { pattern_id := pattern_id, pattern_type := pattern_type,
      trigger_conditions := trigger_conditions,
      expected_outcomes := expected_outcomes, confidence := confidence,
      usage_count := 0, last_accessed := now, surprise_events := [] }
  (setKey pattern_id p patterns, p)

/-- The removal condition of `cleanup_old_patterns`: unaccessed for longer
than the decay window, low confidence, and low usage. -/
def shouldRemove (now : ℚ) (p : MemoryPattern) : Bool :=
  decide (p.last_accessed < now - patternDecayHours ∧
          p.confidence < 3/10 ∧ p.usage_count < 3)

/-- Model of `MemoryManager.cleanup_old_patterns`: collect the ids of the
patterns meeting all three removal conditions, delete them, and return the
number removed. -/
def cleanupOldPatterns (patterns : List (String × MemoryPattern)) (now : ℚ) :
    List (String × MemoryPattern) × ℕ :=
  let patterns_to_remove :=
    (patterns.filter (fun e => shouldRemove now e.2)).map Prod.fst
  (patterns_to_remove.foldl (fun t pid => eraseKey pid t) patterns,
   patterns_to_remove.length)

/-- C10: `store_pattern` stores the caller-supplied confidence without
clamping or validation, so a confidence outside `[0,1]` (here `1.5`) is
stored as-is and violates the `[0,1]` range. -/
theorem store_pattern_no_clamping :
    (∀ (patterns : List (String × MemoryPattern)) (pid ptype : String)
        (trig exp : PyMap) (conf now : ℚ),
      (storePattern patterns pid ptype trig exp conf now).2.confidence = conf ∧
      lookupKey pid (storePattern patterns pid ptype trig exp conf now).1 =
        some (storePattern patterns pid ptype trig exp conf now).2) ∧
    1 < (storePattern [] "p1" "coordination" [] [] (3/2) 0).2.confidence := by
  constructor
  · intro patterns pid ptype trig exp conf now
    exact ⟨rfl, lookupKey_setKey_self _ _⟩
  · norm_num [storePattern]

theorem eraseKey_eq_filter {k : String} :
    ∀ {l : List (String × α)}, (l.map Prod.fst).Nodup →
      eraseKey k l = l.filter (fun e => decide (e.1 ≠ k)) := by
  intro l
  induction l with
  | nil => intro _; rfl
  | cons e es ih =>
    intro h
    rw [List.map_cons, List.nodup_cons] at h
    by_cases he : e.1 = k
    · have hd : (decide (e.1 ≠ k)) = false := by simp [he]
      simp only [eraseKey, if_pos he, List.filter_cons, hd, Bool.false_eq_true,
        if_false]
      refine (List.filter_eq_self.mpr ?_).symm
      intro x hx
      simp only [decide_eq_true_eq]
      intro hk
      exact h.1 (by
        rw [he, ← hk]
        exact List.mem_map_of_mem Prod.fst hx)
    · have hd : (decide (e.1 ≠ k)) = true := by simp [he]
      simp only [eraseKey, if_neg he, List.filter_cons, hd, if_true]
      rw [ih h.2]

theorem foldl_eraseKey_eq_filter :
    ∀ (rem : List String) (l : List (String × α)), (l.map Prod.fst).Nodup →
      rem.foldl (fun t pid => eraseKey pid t) l =
        l.filter (fun e => decide (e.1 ∉ rem)) := by
  intro rem
  induction rem with
  | nil =>
    intro l _
    simp
  | cons r rs ih =>
    intro l h
    simp only [List.foldl_cons]
    rw [eraseKey_eq_filter h]
    have hsub : ((l.filter (fun e => decide (e.1 ≠ r))).map Prod.fst).Nodup :=
      (List.Sublist.map Prod.fst (List.filter_sublist l)).nodup h
    rw [ih _ hsub, List.filter_filter]
    apply List.filter_congr
    intro e _
    simp only [List.mem_cons, not_or, Bool.and_eq_true, decide_eq_true_eq,
      Bool.decide_and]
    rw [Bool.and_comm]

theorem entry_unique {x y : String × α} :
    ∀ {l : List (String × α)}, (l.map Prod.fst).Nodup →
      x ∈ l → y ∈ l → x.1 = y.1 → x = y := by
  intro l
  induction l with
  | nil => intro _ hx; exact absurd hx (List.not_mem_nil x)
  | cons a as ih =>
    intro h hx hy hk
    rw [List.map_cons, List.nodup_cons] at h
    rcases List.mem_cons.mp hx with hxa | hxas
    · rcases List.mem_cons.mp hy with hya | hyas
      · rw [hxa, hya]
      · exact absurd (by
          rw [← hxa, hk]
          exact List.mem_map_of_mem Prod.fst hyas) h.1
    · rcases List.mem_cons.mp hy with hya | hyas
      · exact absurd (by
          rw [← hya, ← hk]
          exact List.mem_map_of_mem Prod.fst hxas) h.1
      · exact ih h.2 hxas hyas hk

/-- C8: `cleanup_old_patterns` removes a pattern exactly when all three
conditions hold (last accessed more than the 24-hour decay window ago,
confidence below `0.3`, usage count below `3`) and returns the number of
patterns removed. -/
theorem cleanup_removes_iff (patterns : List (String × MemoryPattern)) (now : ℚ)
    (hnd : (patterns.map Prod.fst).Nodup) :
    (cleanupOldPatterns patterns now).1 =
      patterns.filter (fun e => ! shouldRemove now e.2) ∧
    (cleanupOldPatterns patterns now).2 =
      (patterns.filter (fun e => shouldRemove now e.2)).length ∧
    (∀ e ∈ patterns, e ∈ (cleanupOldPatterns patterns now).1 ↔
      ¬(e.2.last_accessed < now - patternDecayHours ∧ e.2.confidence < 3/10 ∧
        e.2.usage_count < 3)) := by
  have hone : (cleanupOldPatterns patterns now).1 =
      patterns.filter (fun e => ! shouldRemove now e.2) := by
    show (((patterns.filter (fun e => shouldRemove now e.2)).map
        Prod.fst).foldl (fun t pid => eraseKey pid t) patterns) = _
    rw [foldl_eraseKey_eq_filter _ _ hnd]
    apply List.filter_congr
    intro e he
    cases hrem : shouldRemove now e.2 with
    | true =>
      simp only [Bool.not_true]
      rw [decide_eq_false_iff_not, not_not]
      exact List.mem_map_of_mem Prod.fst (List.mem_filter.mpr ⟨he, hrem⟩)
    | false =>
      simp only [Bool.not_false]
      rw [decide_eq_true_eq]
      intro hmem
      obtain ⟨x, hx, hfst⟩ := List.mem_map.mp hmem
      have hxmem := (List.mem_filter.mp hx).1
      have hxrem := (List.mem_filter.mp hx).2
      have hxe : x = e := entry_unique hnd hxmem he hfst
      rw [hxe] at hxrem
      rw [hxrem] at hrem
      exact Bool.noConfusion hrem
  refine ⟨hone, by simp [cleanupOldPatterns], ?_⟩
  intro e he
  rw [hone, List.mem_filter]
  simp only [he, true_and, Bool.not_eq_true', shouldRemove, decide_eq_false_iff_not,
    patternDecayHours]

/-- A stale low-confidence, low-usage pattern (removed by cleanup). -/
def lowPat : MemoryPattern :=
  { pattern_id := "old", pattern_type := "coordination", trigger_conditions := [],
    expected_outcomes := [], confidence := 1/5, usage_count := 1,
    last_accessed := 0, surprise_events := [] }

/-- A stale but high-confidence pattern (retained by cleanup). -/
def highPat : MemoryPattern :=
  { pattern_id := "good", pattern_type := "coordination", trigger_conditions := [],
    expected_outcomes := [], confidence := 9/10, usage_count := 1,
    last_accessed := 0, surprise_events := [] }

/-- Witness for `cleanup_removes_iff`: at `now = 25` hours, the stale
pattern with confidence `0.2` is removed (count 1) and the stale pattern
with confidence `0.9` is retained. -/
theorem cleanup_removes_iff_witness :
    (cleanupOldPatterns [("old", lowPat), ("good", highPat)] 25).2 = 1 ∧
    ("good", highPat) ∈ (cleanupOldPatterns [("old", lowPat), ("good", highPat)] 25).1 := by
  have h := cleanup_removes_iff [("old", lowPat), ("good", highPat)] 25 (by simp)
  constructor
  · rw [h.2.1]
    norm_num [List.filter_cons, shouldRemove, lowPat, highPat, patternDecayHours]
  · refine (h.2.2 ("good", highPat) (by simp)).mpr ?_
    norm_num [highPat, patternDecayHours]

/-- The surprise magnitude exactly as the spec words it: the number of keys
in the union of the two key sets whose values differ, divided by the size
of the union, and `0` when both maps are empty (no `min` cap, no extra
empty-union guard).  A key's value is what `.get` yields — `None` when the
key is absent — matching the source's comparison. -/
def specSurpriseMagnitude (expected actual : PyMap) : ℚ :=
  if expected = [] ∧ actual = [] then 0
  else ((unionKeys expected actual).countP
      (fun k => decide (pyGet k expected ≠ pyGet k actual)) : ℚ) /
    ((unionKeys expected actual).length : ℚ)

theorem surpriseMagnitude_eq_spec (e a : PyMap) :
    surpriseMagnitude e a = specSurpriseMagnitude e a := by
  unfold surpriseMagnitude specSurpriseMagnitude
  by_cases hb : e = [] ∧ a = []
  · simp [hb]
  · simp only [if_neg hb]
    by_cases hk : unionKeys e a = []
    · simp [hk]
    · simp only [if_neg hk]
      have hn : 0 < (unionKeys e a).length := List.length_pos.mpr hk
      have hnq : (0 : ℚ) < ((unionKeys e a).length : ℚ) := by exact_mod_cast hn
      have hd : (unionKeys e a).countP
            (fun k => decide (pyGet k e ≠ pyGet k a)) ≤
          (unionKeys e a).length := List.countP_le_length _
      rw [min_eq_right]
      rw [div_le_one hnq]
      exact_mod_cast hd

theorem surpriseMagnitude_nonneg (e a : PyMap) : 0 ≤ surpriseMagnitude e a := by
  unfold surpriseMagnitude
  by_cases hb : e = [] ∧ a = []
  · simp [hb]
  · simp only [if_neg hb]
    by_cases hk : unionKeys e a = []
    · simp [hk]
    · simp only [if_neg hk]
      exact le_min (by norm_num) (by positivity)

theorem surpriseMagnitude_le_one (e a : PyMap) : surpriseMagnitude e a ≤ 1 := by
  unfold surpriseMagnitude
  by_cases hb : e = [] ∧ a = []
  · simp [hb]
  · simp only [if_neg hb]
    by_cases hk : unionKeys e a = []
    · simp [hk]
    · simp only [if_neg hk]
      exact min_le_left 1 _

/-- Fidelity check of the `.get`-based comparison: a key stored with value
`None` in one map and absent from the other is not a mismatch, so
`expected={"k": None}`, `actual={}` has magnitude `0`, as in the source. -/
theorem surpriseMagnitude_none_matches_absent :
    surpriseMagnitude [("k", PyVal.none)] [] = 0 := by
  norm_num [surpriseMagnitude, unionKeys, mapKeys, pyGet, lookupKey]

theorem drop_eq_reverse_take (l : List α) (n : ℕ) :
    l.drop (l.length - n) = (l.reverse.take n).reverse := by
  rw [← List.rtake_eq_reverse_take_reverse]
  rfl

/-- The surprise-event record built by `record_surprise`. -/
def mkSurpriseEvent (t : ℚ) (e a c : PyMap) : SurpriseEvent :=
  { timestamp := t, expected := e, actual := a, context := c,
    surprise_magnitude := surpriseMagnitude e a }

/-- C6: `record_surprise` computes the surprise magnitude as the mismatched
fraction over the union of key sets (0 when both maps are empty), reduces
confidence by `magnitude * 0.5` floored at 0 when the magnitude exceeds the
threshold `0.3`, appends the surprise event, and — once the pattern then
has more than 5 surprise events — halves the confidence with floor `0.1`
and retains only the two most recent surprise events. -/
theorem record_surprise_spec (p : MemoryPattern) (e a c : PyMap) (t : ℚ) :
    surpriseMagnitude e a = specSurpriseMagnitude e a ∧
    ((p.surprise_events.length + 1 > 5) →
      (recordSurprisePattern p e a c t).confidence =
        max (1/10)
          ((if surpriseMagnitude e a > 3/10 then
              max 0 (p.confidence - surpriseMagnitude e a * (1/2))
            else p.confidence) * (1/2)) ∧
      (recordSurprisePattern p e a c t).surprise_events =
        ((p.surprise_events ++ [mkSurpriseEvent t e a c]).reverse.take 2).reverse) ∧
    (¬(p.surprise_events.length + 1 > 5) →
      (recordSurprisePattern p e a c t).confidence =
        (if surpriseMagnitude e a > 3/10 then
            max 0 (p.confidence - surpriseMagnitude e a * (1/2))
          else p.confidence) ∧
      (recordSurprisePattern p e a c t).surprise_events =
        p.surprise_events ++ [mkSurpriseEvent t e a c]) := by
  refine ⟨surpriseMagnitude_eq_spec e a, ?_, ?_⟩
  · intro h5
    have hm5 : (p.surprise_events ++ [mkSurpriseEvent t e a c]).length > 5 := by
      rw [List.length_append]
      simpa using h5
    by_cases hm : surpriseMagnitude e a > 3/10
    · have hrec : recordSurprisePattern p e a c t =
        { p with
            confidence :=
              max (1/10)
                ((max 0 (p.confidence - surpriseMagnitude e a * (1/2))) * (1/2)),
            surprise_events :=
              (p.surprise_events ++ [mkSurpriseEvent t e a c]).drop
                ((p.surprise_events ++ [mkSurpriseEvent t e a c]).length - 2) } := by
        simp [recordSurprisePattern, triggerPatternRelearning, surpriseThreshold,
          mkSurpriseEvent, hm, hm5]
        intro h
        exact absurd h (by omega)
      rw [hrec]
      refine ⟨by simp [hm], ?_⟩
      exact drop_eq_reverse_take _ 2
    · have hrec : recordSurprisePattern p e a c t =
        { p with
            confidence := max (1/10) (p.confidence * (1/2)),
            surprise_events :=
              (p.surprise_events ++ [mkSurpriseEvent t e a c]).drop
                ((p.surprise_events ++ [mkSurpriseEvent t e a c]).length - 2) } := by
        simp [recordSurprisePattern, triggerPatternRelearning, surpriseThreshold,
          mkSurpriseEvent, hm, hm5]
        intro h
        exact absurd h (by omega)
      rw [hrec]
      refine ⟨by simp [hm], ?_⟩
      exact drop_eq_reverse_take _ 2
  · intro h5
    have hm5 : ¬ (p.surprise_events ++ [mkSurpriseEvent t e a c]).length > 5 := by
      rw [List.length_append]
      simpa using h5
    by_cases hm : surpriseMagnitude e a > 3/10
    · have hrec : recordSurprisePattern p e a c t =
        { p with
            confidence := max 0 (p.confidence - surpriseMagnitude e a * (1/2)),
            surprise_events := p.surprise_events ++ [mkSurpriseEvent t e a c] } := by
        simp [recordSurprisePattern, triggerPatternRelearning, surpriseThreshold,
          mkSurpriseEvent, hm, hm5]
        intro h
        exact absurd h (by omega)
      rw [hrec]
      exact ⟨by simp [hm], rfl⟩
    · have hrec : recordSurprisePattern p e a c t =
        { p with
            surprise_events := p.surprise_events ++ [mkSurpriseEvent t e a c] } := by
        simp [recordSurprisePattern, triggerPatternRelearning, surpriseThreshold,
          mkSurpriseEvent, hm, hm5]
        intro h
        exact absurd h (by omega)
      rw [hrec]
      exact ⟨by simp [hm], rfl⟩

/-- Witness for `record_surprise_spec` on a pattern with no prior surprise
events and empty outcome maps. -/
theorem record_surprise_spec_witness :
    (recordSurprisePattern lowPat [] [] [] 0).confidence =
      (if surpriseMagnitude [] [] > 3/10 then
          max 0 (lowPat.confidence - surpriseMagnitude [] [] * (1/2))
        else lowPat.confidence) ∧
    (recordSurprisePattern lowPat [] [] [] 0).surprise_events =
      lowPat.surprise_events ++ [mkSurpriseEvent 0 [] [] []] :=
  (record_surprise_spec lowPat [] [] [] 0).2.2 (by decide)

/-- Confidence-affecting operations on a pattern: a reinforcement outcome
update (`Coordinator._update_pattern_learning`, `+0.1` on success and
`-0.1` on failure, clamped to `[0,1]`) or a `record_surprise` call. -/
inductive ConfOp where
  | outcome (success : Bool)
  | surprise (expected actual ctx : PyMap) (t : ℚ)

/-- Apply one confidence-affecting operation to a pattern. -/
def applyConfOp (p : MemoryPattern) : ConfOp → MemoryPattern
  | ConfOp.outcome true => { p with confidence := min 1 (p.confidence + 1/10) }
  | ConfOp.outcome false => { p with confidence := max 0 (p.confidence - 1/10) }
  | ConfOp.surprise e a c t => recordSurprisePattern p e a c t

theorem recordSurprisePattern_confidence_mem (p : MemoryPattern) (e a c : PyMap)
    (t : ℚ) (h0 : 0 ≤ p.confidence) (h1 : p.confidence ≤ 1) :
    0 ≤ (recordSurprisePattern p e a c t).confidence ∧
      (recordSurprisePattern p e a c t).confidence ≤ 1 := by
  have hm0 := surpriseMagnitude_nonneg e a
  have hm1 := surpriseMagnitude_le_one e a
  unfold recordSurprisePattern triggerPatternRelearning
  simp only [surpriseThreshold]
  split_ifs with hm hl hl
  · constructor
    · exact le_max_of_le_left (by norm_num)
    · refine max_le (by norm_num) ?_
      have hx0 : (0 : ℚ) ≤ max 0 (p.confidence - surpriseMagnitude e a * (1/2)) :=
        le_max_left 0 _
      have hx1 : max 0 (p.confidence - surpriseMagnitude e a * (1/2)) ≤ 1 :=
        max_le (by norm_num) (by nlinarith)
      nlinarith
  · constructor
    · exact le_max_left 0 _
    · exact max_le (by norm_num) (by nlinarith)
  · constructor
    · exact le_max_of_le_left (by norm_num)
    · exact max_le (by norm_num) (by nlinarith)
  · exact ⟨h0, h1⟩

theorem applyConfOp_confidence_mem (p : MemoryPattern) (op : ConfOp)
    (h0 : 0 ≤ p.confidence) (h1 : p.confidence ≤ 1) :
    0 ≤ (applyConfOp p op).confidence ∧ (applyConfOp p op).confidence ≤ 1 := by
  cases op with
  | outcome b =>
    cases b with
    | true =>
      refine ⟨le_min (by norm_num) (by linarith), ?_⟩
      exact min_le_left 1 _
    | false =>
      refine ⟨le_max_left 0 _, ?_⟩
      exact max_le (by norm_num) (by linarith)
  | surprise e a c t => exact recordSurprisePattern_confidence_mem p e a c t h0 h1

/-- C5: starting from any confidence in `[0,1]`, after any finite sequence
of outcome updates (`+0.1` on success, `-0.1` on failure, clamped) and
`record_surprise` calls (including any triggered relearning), the pattern
confidence remains in `[0,1]`. -/
theorem confidence_stays_in_unit_interval :
    ∀ (ops : List ConfOp) (p : MemoryPattern),
      0 ≤ p.confidence → p.confidence ≤ 1 →
      0 ≤ (ops.foldl applyConfOp p).confidence ∧
        (ops.foldl applyConfOp p).confidence ≤ 1 := by
  intro ops
  induction ops with
  | nil => exact fun p h0 h1 => ⟨h0, h1⟩
  | cons op ops ih =>
    intro p h0 h1
    have h := applyConfOp_confidence_mem p op h0 h1
    exact ih _ h.1 h.2

/-- Witness for `confidence_stays_in_unit_interval` with a success update
followed by a surprising outcome on a concrete pattern. -/
theorem confidence_stays_in_unit_interval_witness :
    (0 ≤ lowPat.confidence ∧ lowPat.confidence ≤ 1) ∧
    (0 ≤ ([ConfOp.outcome true,
        ConfOp.surprise [("k", PyVal.int 1)] [("k", PyVal.int 2)] [] 0].foldl
          applyConfOp lowPat).confidence ∧
      ([ConfOp.outcome true,
        ConfOp.surprise [("k", PyVal.int 1)] [("k", PyVal.int 2)] [] 0].foldl
          applyConfOp lowPat).confidence ≤ 1) :=
  ⟨⟨by norm_num [lowPat], by norm_num [lowPat]⟩,
   confidence_stays_in_unit_interval _ lowPat (by norm_num [lowPat])
     (by norm_num [lowPat])⟩

/-- The `pattern_type` filter guard of `find_matching_patterns`
(`if pattern_type and pattern.pattern_type != pattern_type: continue`);
a `None` or empty (falsy) `pattern_type` filters nothing. -/
def typeMatches (pattern_type : Option String) (p : MemoryPattern) : Bool :=
  match pattern_type with
  | Option.none => true
  | some ty => if ty = "" then true else decide (p.pattern_type = ty)

/-- Model of `MemoryManager._calculate_pattern_relevance`: key-overlap
fraction plus confidence and usage boosts, capped at `1.0`; `0.0` when the
pattern has no trigger keys. -/
def calculatePatternRelevance (p : MemoryPattern) (context : PyMap) : ℚ :=
  let pattern_keys := mapKeys p.trigger_conditions
  let context_keys := mapKeys context
  if pattern_keys = [] then 0
  else
    let overlap := pattern_keys.countP (fun k => decide (k ∈ context_keys))
    let relevance := (overlap : ℚ) / (pattern_keys.length : ℚ)
    let confidence_boost := p.confidence * (3/10)
    let usage_boost := min ((p.usage_count : ℚ) / 10) (1/5)
    min 1 (relevance + confidence_boost + usage_boost)

/-- The in-place mutation of a matched pattern inside
`find_matching_patterns`: bump `usage_count` and refresh `last_accessed`. -/
def bumpPattern (p : MemoryPattern) (now : ℚ) : MemoryPattern :=
  { p with usage_count := p.usage_count + 1, last_accessed := now }

/-- The `(pattern, relevance_score)` pairs accumulated by
`find_matching_patterns` before sorting: type-filtered patterns whose
relevance exceeds `0.3`, bumped, paired with their (pre-bump) relevance. -/
def scoredCandidates (patterns : List MemoryPattern) (context : PyMap)
    (pattern_type : Option String) (now : ℚ) : List (MemoryPattern × ℚ) :=
  patterns.filterMap (fun p =>
    if typeMatches pattern_type p then
      if calculatePatternRelevance p context > 3/10 then
        some (bumpPattern p now, calculatePatternRelevance p context)
      else Option.none
    else Option.none)

/-- Insert into a descending-by-score list, after all entries with a
strictly larger or equal score (the placement a stable sort gives the
earliest element). -/
def insertScoredDesc (x : MemoryPattern × ℚ) :
    List (MemoryPattern × ℚ) → List (MemoryPattern × ℚ)
  | [] => [x]
  | y :: ys => if x.2 < y.2 then y :: insertScoredDesc x ys else x :: y :: ys

/-- Stable descending sort by score, the behaviour of
`matching_patterns.sort(key=lambda x: x[1], reverse=True)` (Python's sort
is stable and `reverse=True` keeps ties in list order). -/
def sortScoredDesc : List (MemoryPattern × ℚ) → List (MemoryPattern × ℚ)
  | [] => []
  | x :: xs => insertScoredDesc x (sortScoredDesc xs)

/-- Model of `MemoryManager.find_matching_patterns`. -/
def findMatchingPatterns (patterns : List MemoryPattern) (context : PyMap)
    (pattern_type : Option String) (now : ℚ) : List MemoryPattern :=
  (sortScoredDesc (scoredCandidates patterns context pattern_type now)).map Prod.fst

/-- The relevance formula exactly as the spec words it:
`|trigger_keys ∩ context_keys| / |trigger_keys| + confidence*0.3 +
min(usage_count/10, 0.2)`, capped at `1.0`. -/
def specPatternRelevance (p : MemoryPattern) (context : PyMap) : ℚ :=
  min 1
    ((((mapKeys p.trigger_conditions).filter
        (fun k => decide (k ∈ mapKeys context))).length : ℚ) /
      ((mapKeys p.trigger_conditions).length : ℚ) +
      p.confidence * (3/10) + min ((p.usage_count : ℚ) / 10) (1/5))

theorem calculatePatternRelevance_eq_spec (p : MemoryPattern) (context : PyMap)
    (h : mapKeys p.trigger_conditions ≠ []) :
    calculatePatternRelevance p context = specPatternRelevance p context := by
  unfold calculatePatternRelevance specPatternRelevance
  simp only [if_neg h]
  rw [List.countP_eq_length_filter]

theorem scoredCandidates_eq (patterns : List MemoryPattern) (context : PyMap)
    (pattern_type : Option String) (now : ℚ) :
    scoredCandidates patterns context pattern_type now =
      (patterns.filter (fun p => typeMatches pattern_type p &&
          decide (calculatePatternRelevance p context > 3/10))).map
        (fun p => (bumpPattern p now, calculatePatternRelevance p context)) := by
  induction patterns with
  | nil => rfl
  | cons p ps ih =>
    simp only [scoredCandidates, List.filterMap_cons, List.filter_cons] at *
    by_cases ht : typeMatches pattern_type p
    · by_cases hr : calculatePatternRelevance p context > 3/10
      · simp [ht, hr, ih]
      · simp [ht, hr, ih]
    · simp [ht, ih]

theorem insertScoredDesc_perm (x : MemoryPattern × ℚ) :
    ∀ l : List (MemoryPattern × ℚ), (insertScoredDesc x l).Perm (x :: l) := by
  intro l
  induction l with
  | nil => exact List.Perm.refl _
  | cons y ys ih =>
    by_cases hlt : x.2 < y.2
    · simp only [insertScoredDesc, if_pos hlt]
      exact (ih.cons y).trans (List.Perm.swap x y ys)
    · simp only [insertScoredDesc, if_neg hlt]
      exact List.Perm.refl _

theorem sortScoredDesc_perm :
    ∀ l : List (MemoryPattern × ℚ), (sortScoredDesc l).Perm l := by
  intro l
  induction l with
  | nil => exact List.Perm.refl _
  | cons x xs ih =>
    exact (insertScoredDesc_perm x (sortScoredDesc xs)).trans (ih.cons x)

theorem insertScoredDesc_sorted {x : MemoryPattern × ℚ}
    {l : List (MemoryPattern × ℚ)}
    (h : l.Pairwise (fun a b => b.2 ≤ a.2)) :
    (insertScoredDesc x l).Pairwise (fun a b => b.2 ≤ a.2) := by
  induction l with
  | nil => exact List.pairwise_singleton _ x
  | cons y ys ih =>
    rw [List.pairwise_cons] at h
    by_cases hlt : x.2 < y.2
    · simp only [insertScoredDesc, if_pos hlt]
      rw [List.pairwise_cons]
      refine ⟨?_, ih h.2⟩
      intro z hz
      have hz2 := (insertScoredDesc_perm x ys).mem_iff.mp hz
      rcases List.mem_cons.mp hz2 with hzx | hzys
      · rw [hzx]
        exact le_of_lt hlt
      · exact h.1 z hzys
    · simp only [insertScoredDesc, if_neg hlt]
      rw [List.pairwise_cons]
      refine ⟨?_, List.pairwise_cons.mpr h⟩
      intro z hz
      rcases List.mem_cons.mp hz with hzy | hzys
      · rw [hzy]
        exact le_of_not_lt hlt
      · exact le_trans (h.1 z hzys) (le_of_not_lt hlt)

theorem sortScoredDesc_sorted :
    ∀ l : List (MemoryPattern × ℚ),
      (sortScoredDesc l).Pairwise (fun a b => b.2 ≤ a.2) := by
  intro l
  induction l with
  | nil => exact List.Pairwise.nil
  | cons x xs ih => exact insertScoredDesc_sorted ih

theorem insertScoredDesc_filter (x : MemoryPattern × ℚ) (q : ℚ) :
    ∀ l : List (MemoryPattern × ℚ),
      (insertScoredDesc x l).filter (fun y => decide (y.2 = q)) =
        (x :: l).filter (fun y => decide (y.2 = q)) := by
  intro l
  induction l with
  | nil => rfl
  | cons y ys ih =>
    by_cases hlt : x.2 < y.2
    · simp only [insertScoredDesc, if_pos hlt]
      by_cases hyq : y.2 = q
      · have hxq : ¬ x.2 = q := by
          rw [← hyq]
          exact ne_of_lt hlt
        simp [List.filter_cons, hyq, hxq, ih]
      · by_cases hxq : x.2 = q <;> simp [List.filter_cons, hyq, hxq, ih]
    · simp only [insertScoredDesc, if_neg hlt]

theorem sortScoredDesc_filter (q : ℚ) :
    ∀ l : List (MemoryPattern × ℚ),
      (sortScoredDesc l).filter (fun y => decide (y.2 = q)) =
        l.filter (fun y => decide (y.2 = q)) := by
  intro l
  induction l with
  | nil => rfl
  | cons x xs ih =>
    rw [show sortScoredDesc (x :: xs) = insertScoredDesc x (sortScoredDesc xs) from
      rfl]
    rw [insertScoredDesc_filter]
    simp only [List.filter_cons]
    rw [ih]

/-- C7: `find_matching_patterns` assigns each type-filtered pattern the
relevance `|trigger ∩ context| / |trigger| + confidence*0.3 +
min(usage/10, 0.2)` capped at `1.0` (for patterns with trigger keys),
keeps exactly the patterns with relevance strictly greater than `0.3`
(bumping their usage), and returns them sorted in descending relevance
with ties kept in insertion order (stable sort). -/
theorem find_matching_patterns_spec (patterns : List MemoryPattern)
    (context : PyMap) (pattern_type : Option String) (now : ℚ) :
    (∀ p : MemoryPattern, mapKeys p.trigger_conditions ≠ [] →
      calculatePatternRelevance p context = specPatternRelevance p context) ∧
    scoredCandidates patterns context pattern_type now =
      (patterns.filter (fun p => typeMatches pattern_type p &&
          decide (calculatePatternRelevance p context > 3/10))).map
        (fun p => (bumpPattern p now, calculatePatternRelevance p context)) ∧
    (sortScoredDesc (scoredCandidates patterns context pattern_type now)).Perm
      (scoredCandidates patterns context pattern_type now) ∧
    (sortScoredDesc (scoredCandidates patterns context pattern_type now)).Pairwise
      (fun a b => b.2 ≤ a.2) ∧
    (∀ q : ℚ,
      (sortScoredDesc (scoredCandidates patterns context pattern_type now)).filter
          (fun y => decide (y.2 = q)) =
        (scoredCandidates patterns context pattern_type now).filter
          (fun y => decide (y.2 = q))) ∧
    findMatchingPatterns patterns context pattern_type now =
      (sortScoredDesc (scoredCandidates patterns context pattern_type now)).map
        Prod.fst :=
  ⟨fun p h => calculatePatternRelevance_eq_spec p context h,
   scoredCandidates_eq patterns context pattern_type now,
   sortScoredDesc_perm _, sortScoredDesc_sorted _,
   fun q => sortScoredDesc_filter q _, rfl⟩

/-- A concrete pattern with a non-empty trigger map, for the
`find_matching_patterns_spec` witness. -/
def patC : MemoryPattern :=
  { pattern_id := "c", pattern_type := "coordination",
    trigger_conditions := [("k", PyVal.int 1)], expected_outcomes := [],
    confidence := 1/2, usage_count := 0, last_accessed := 0,
    surprise_events := [] }

/-- Witness for `find_matching_patterns_spec`: the relevance of a concrete
pattern with a non-empty trigger map equals the spec formula. -/
theorem find_matching_patterns_spec_witness :
    mapKeys patC.trigger_conditions ≠ [] ∧
    calculatePatternRelevance patC [("k", PyVal.int 2)] =
      specPatternRelevance patC [("k", PyVal.int 2)] :=
  ⟨by decide,
   (find_matching_patterns_spec [patC] [("k", PyVal.int 2)] Option.none 1).1
     patC (by decide)⟩
